import Mathlib

/-!
Verification of `src/frontend/storm_wiki/util/file_io.py` (class `FileIOHelper`),
centred on `assemble_article_data` and
`_construct_citation_dict_from_search_result`.

The Python code is shallowly embedded:
* JSON values become the inductive `PyJson` (JSON numbers are modelled as
  integers; the claims under study only involve integer-valued numbers).
* The filesystem and the external `parse` collaborator from
  `text_processing.py` become an explicit environment `FS`; reading a text
  file may fail with a `ReadError`, reading+decoding a JSON file yields a
  `JsonReadResult` (read failure, decode failure, or a value).
* Python exceptions become `Except PyErr`; the single uncaught exception of
  `assemble_article_data` (the `TypeError` for a non-dict argument) is the
  `Except.error ()` of the outer result type, while every exception caught
  by the `try/except` block collapses to a `none` record, as in the source.
* The regex substitution `re.sub(r"^#\x7b1,3\x7d[^\n]*\n?", "", s, flags=re.MULTILINE)`
  is embedded as the character scanner `reSubAux`: at each line start
  (string start or the position right after a newline) a line whose first
  character is `#` matches the pattern (the first 1-3 `#` by the counted
  group, the rest of the line by `[^\n]*`) and is deleted together with its
  trailing newline; all other characters are copied verbatim.
-/

set_option autoImplicit false

namespace FileIOHelper

/-- Shallow embedding of the JSON values (Python objects produced by
`json.load`).  Objects are association lists in insertion order, matching
Python dict iteration order; numbers are modelled as integers. -/
inductive PyJson where
  | null
  | bool (b : Bool)
  | int (n : Int)
  | str (s : String)
  | arr (elems : List PyJson)
  | obj (fields : List (String × PyJson))
  deriving Repr

mutual

/-- Decidable equality of embedded JSON values (hand-written because the
deriving handler does not support this nested inductive). -/
def PyJson.decEq : (a b : PyJson) → Decidable (a = b)
  | PyJson.null, PyJson.null => Decidable.isTrue rfl
  | PyJson.bool a, PyJson.bool b =>
    if h : a = b then Decidable.isTrue (by rw [h])
    else Decidable.isFalse (fun hh => h (PyJson.bool.inj hh))
  | PyJson.int a, PyJson.int b =>
    if h : a = b then Decidable.isTrue (by rw [h])
    else Decidable.isFalse (fun hh => h (PyJson.int.inj hh))
  | PyJson.str a, PyJson.str b =>
    if h : a = b then Decidable.isTrue (by rw [h])
    else Decidable.isFalse (fun hh => h (PyJson.str.inj hh))
  | PyJson.arr a, PyJson.arr b =>
    match PyJson.decEqList a b with
    | Decidable.isTrue h => Decidable.isTrue (by rw [h])
    | Decidable.isFalse h => Decidable.isFalse (fun hh => h (PyJson.arr.inj hh))
  | PyJson.obj a, PyJson.obj b =>
    match PyJson.decEqKV a b with
    | Decidable.isTrue h => Decidable.isTrue (by rw [h])
    | Decidable.isFalse h => Decidable.isFalse (fun hh => h (PyJson.obj.inj hh))
  | PyJson.null, PyJson.bool _ => Decidable.isFalse (fun h => PyJson.noConfusion h)
  | PyJson.null, PyJson.int _ => Decidable.isFalse (fun h => PyJson.noConfusion h)
  | PyJson.null, PyJson.str _ => Decidable.isFalse (fun h => PyJson.noConfusion h)
  | PyJson.null, PyJson.arr _ => Decidable.isFalse (fun h => PyJson.noConfusion h)
  | PyJson.null, PyJson.obj _ => Decidable.isFalse (fun h => PyJson.noConfusion h)
  | PyJson.bool _, PyJson.null => Decidable.isFalse (fun h => PyJson.noConfusion h)
  | PyJson.bool _, PyJson.int _ => Decidable.isFalse (fun h => PyJson.noConfusion h)
  | PyJson.bool _, PyJson.str _ => Decidable.isFalse (fun h => PyJson.noConfusion h)
  | PyJson.bool _, PyJson.arr _ => Decidable.isFalse (fun h => PyJson.noConfusion h)
  | PyJson.bool _, PyJson.obj _ => Decidable.isFalse (fun h => PyJson.noConfusion h)
  | PyJson.int _, PyJson.null => Decidable.isFalse (fun h => PyJson.noConfusion h)
  | PyJson.int _, PyJson.bool _ => Decidable.isFalse (fun h => PyJson.noConfusion h)
  | PyJson.int _, PyJson.str _ => Decidable.isFalse (fun h => PyJson.noConfusion h)
  | PyJson.int _, PyJson.arr _ => Decidable.isFalse (fun h => PyJson.noConfusion h)
  | PyJson.int _, PyJson.obj _ => Decidable.isFalse (fun h => PyJson.noConfusion h)
  | PyJson.str _, PyJson.null => Decidable.isFalse (fun h => PyJson.noConfusion h)
  | PyJson.str _, PyJson.bool _ => Decidable.isFalse (fun h => PyJson.noConfusion h)
  | PyJson.str _, PyJson.int _ => Decidable.isFalse (fun h => PyJson.noConfusion h)
  | PyJson.str _, PyJson.arr _ => Decidable.isFalse (fun h => PyJson.noConfusion h)
  | PyJson.str _, PyJson.obj _ => Decidable.isFalse (fun h => PyJson.noConfusion h)
  | PyJson.arr _, PyJson.null => Decidable.isFalse (fun h => PyJson.noConfusion h)
  | PyJson.arr _, PyJson.bool _ => Decidable.isFalse (fun h => PyJson.noConfusion h)
  | PyJson.arr _, PyJson.int _ => Decidable.isFalse (fun h => PyJson.noConfusion h)
  | PyJson.arr _, PyJson.str _ => Decidable.isFalse (fun h => PyJson.noConfusion h)
  | PyJson.arr _, PyJson.obj _ => Decidable.isFalse (fun h => PyJson.noConfusion h)
  | PyJson.obj _, PyJson.null => Decidable.isFalse (fun h => PyJson.noConfusion h)
  | PyJson.obj _, PyJson.bool _ => Decidable.isFalse (fun h => PyJson.noConfusion h)
  | PyJson.obj _, PyJson.int _ => Decidable.isFalse (fun h => PyJson.noConfusion h)
  | PyJson.obj _, PyJson.str _ => Decidable.isFalse (fun h => PyJson.noConfusion h)
  | PyJson.obj _, PyJson.arr _ => Decidable.isFalse (fun h => PyJson.noConfusion h)

/-- Decidable equality for lists of embedded JSON values. -/
def PyJson.decEqList : (a b : List PyJson) → Decidable (a = b)
  | [], [] => Decidable.isTrue rfl
  | [], _ :: _ => Decidable.isFalse (fun h => List.noConfusion h)
  | _ :: _, [] => Decidable.isFalse (fun h => List.noConfusion h)
  | x :: xs, y :: ys =>
    match PyJson.decEq x y, PyJson.decEqList xs ys with
    | Decidable.isTrue h1, Decidable.isTrue h2 => Decidable.isTrue (by rw [h1, h2])
    | Decidable.isFalse h1, _ => Decidable.isFalse (fun h => h1 (List.cons.inj h).1)
    | _, Decidable.isFalse h2 => Decidable.isFalse (fun h => h2 (List.cons.inj h).2)

/-- Decidable equality for embedded JSON object field lists. -/
def PyJson.decEqKV : (a b : List (String × PyJson)) → Decidable (a = b)
  | [], [] => Decidable.isTrue rfl
  | [], _ :: _ => Decidable.isFalse (fun h => List.noConfusion h)
  | _ :: _, [] => Decidable.isFalse (fun h => List.noConfusion h)
  | (k1, v1) :: xs, (k2, v2) :: ys =>
    if hk : k1 = k2 then
      match PyJson.decEq v1 v2, PyJson.decEqKV xs ys with
      | Decidable.isTrue h1, Decidable.isTrue h2 =>
        Decidable.isTrue (by rw [hk, h1, h2])
      | Decidable.isFalse h1, _ =>
        Decidable.isFalse (fun h => h1 (Prod.mk.inj (List.cons.inj h).1).2)
      | _, Decidable.isFalse h2 =>
        Decidable.isFalse (fun h => h2 (List.cons.inj h).2)
    else
      Decidable.isFalse (fun h => hk (Prod.mk.inj (List.cons.inj h).1).1)

end

instance : DecidableEq PyJson := PyJson.decEq

/-- Failure modes of opening/reading a file, mirroring the Python exception
classes distinguished by `assemble_article_data`'s handlers
(`FileNotFoundError`, `IOError`, any other `Exception`). -/
inductive ReadError where
  | notFound
  | ioError
  | other
  deriving Repr, DecidableEq

/-- Result of `json.load` on a path: the open/read itself may fail, the
decode may fail (`json.JSONDecodeError`), or a JSON value is produced. -/
inductive JsonReadResult where
  | readErr (e : ReadError)
  | decodeErr
  | ok (j : PyJson)
  deriving Repr, DecidableEq

/-- The environment of `assemble_article_data`: the filesystem as seen
through `FileIOHelper.read_txt_file` and `json.load`, plus the external
`parse` collaborator imported from `text_processing.py` (an opaque pure
`string -> string` transform per the module interface). -/
structure FS where
  readTxt : String → Except ReadError String
  readJson : String → JsonReadResult
  parse : String → String

/-- Python exceptions that can arise inside the `try` block of
`assemble_article_data` (all of them are caught by its outer handlers). -/
inductive PyErr where
  | readErr (e : ReadError)
  | jsonDecode
  | typeError
  | attributeError
  | keyError
  deriving Repr, DecidableEq

/-- The argument of `assemble_article_data`: either a genuine dict
(association list of file name to path, in insertion order) or any
non-mapping value, which the code rejects with `TypeError`. -/
inductive PyInput where
  | dict (entries : List (String × String))
  | nonDict

/-- One citation record built by the `url_to_info.json` loop:
`{"url": ..., "title": ..., "description": ..., "snippets": ...}`. -/
structure Citation where
  url : String
  title : PyJson
  description : PyJson
  snippets : PyJson
  deriving Repr, DecidableEq

/-- The assembled article record.  `citations` / `conversation_log` are
`none` exactly when the corresponding key is absent (or, for the log, when
its JSON failed to decode); `citation` is the always-`None` placeholder. -/
structure ArticleData where
  article : String
  short_text : String
  citation : Option PyJson
  citations : Option (List (Nat × Citation))
  conversation_log : Option PyJson
  deriving Repr, DecidableEq

/-! ### The regex substitution producing `no_title_content` -/

/-- Scanner state for `reSubAux`: at a line start (where MULTILINE `^`
matches), copying a non-matching line, or skipping a matched title line. -/
inductive Mode where
  | lineStart
  | copy
  | skip
  deriving Repr, DecidableEq

/-- Character-level embedding of
`re.sub(r"^#\x7b1,3\x7d[^\n]*\n?", "", s, flags=re.MULTILINE)`:
a line whose first character is `#` matches the pattern and is removed
together with its trailing newline; other lines are copied unchanged. -/
def reSubAux : Mode → List Char → List Char
  | _, [] => []
  | Mode.lineStart, c :: rest =>
    if c = '#' then reSubAux Mode.skip rest
    else if c = '\n' then c :: reSubAux Mode.lineStart rest
    else c :: reSubAux Mode.copy rest
  | Mode.copy, c :: rest =>
    if c = '\n' then c :: reSubAux Mode.lineStart rest
    else c :: reSubAux Mode.copy rest
  | Mode.skip, c :: rest =>
    if c = '\n' then reSubAux Mode.lineStart rest
    else reSubAux Mode.skip rest

/-- `no_title_content` of the source: the regex substitution applied to the
parsed article content. -/
def removeTitleLines (s : String) : String :=
  String.mk (reSubAux Mode.lineStart s.toList)

/-- Python string slicing `s[:n]`, character based. -/
def takeChars (n : Nat) (s : String) : String :=
  String.mk (s.toList.take n)

/-- `short_text` as derived in the source: slice the first 100 characters
of `no_title_content`. -/
def shortTextOf (parsed : String) : String :=
  takeChars 100 (removeTitleLines parsed)

/-! ### Line decomposition, for stating what the regex substitution does -/

/-- The lines of a character list, each line kept together with its
trailing newline (only the last line may lack one).  Joining the pieces
gives back the original list. -/
def splitAfterNL : List Char → List (List Char)
  | [] => []
  | c :: cs =>
    if c = '\n' then ['\n'] :: splitAfterNL cs
    else
      match splitAfterNL cs with
      | [] => [[c]]
      | l :: ls => (c :: l) :: ls

/-- Does a line start with at least one `#`?  Exactly the lines whose first
character is `#` match the pattern `^#\x7b1,3\x7d[^\n]*\n?`. -/
def startsWithHash : List Char → Bool
  | [] => false
  | c :: _ => c == '#'

/-- Does a line start with four or more `#` characters? -/
def startsWithFourHash : List Char → Bool
  | c1 :: c2 :: c3 :: c4 :: _ => c1 == '#' && c2 == '#' && c3 == '#' && c4 == '#'
  | _ => false

/-- The lines that survive the regex substitution, concatenated: every line
whose first character is `#` is dropped, with its trailing newline. -/
def joinFiltered (ps : List (List Char)) : List Char :=
  (ps.filter (fun p => !startsWithHash p)).flatten

/-- Scanner deciding that no `#` occurs at a line start (at the beginning
of the text or right after a newline): the flag records whether the scanner
currently stands at a line start. -/
def noHashAux : Bool → List Char → Bool
  | _, [] => true
  | atStart, c :: cs => (!atStart || c != '#') && noHashAux (c == '\n') cs

/-- No line of the text starts with a `#` character. -/
def noHashLines (l : List Char) : Bool :=
  noHashAux true l

/-! ### Helpers over JSON objects (Python `dict.get`, `in`, `[...]`) -/

/-- Python `d.get(k, default)` on an embedded JSON object. -/
def lookupD (kvs : List (String × PyJson)) (k : String) (d : PyJson) : PyJson :=
  match List.lookup k kvs with
  | some v => v
  | none => d

/-- Python `d[k] = v` for a key already present: the value is replaced in
place, the key keeps its position. -/
def updateKey (kvs : List (String × PyJson)) (k : String) (v : PyJson) :
    List (String × PyJson) :=
  kvs.map (fun kv => if kv.fst = k then (k, v) else kv)

/-- Calling `.get`/`.items()` on a value: succeeds only on a dict,
otherwise Python raises `AttributeError`. -/
def asObj : PyJson → Except PyErr (List (String × PyJson))
  | PyJson.obj kvs => Except.ok kvs
  | _ => Except.error PyErr.attributeError

/-- Python truthiness `bool(x)` of an embedded JSON value, as used by
`if not snippets`. -/
def jsonTruthy : PyJson → Bool
  | PyJson.null => false
  | PyJson.bool b => b
  | PyJson.int n => n != 0
  | PyJson.str s => s != ""
  | PyJson.arr l => !l.isEmpty
  | PyJson.obj l => !l.isEmpty

/-- Python subscription `j[k]` with a string key: on a dict it is a lookup
(raising `KeyError` when absent), on any other value it raises `TypeError`. -/
def jsonIndex (j : PyJson) (k : String) : Except PyErr PyJson :=
  match j with
  | PyJson.obj kvs =>
    match List.lookup k kvs with
    | some v => Except.ok v
    | none => Except.error PyErr.keyError
  | _ => Except.error PyErr.typeError

/-- Python `pat in s` substring test (used with `pat = "agent"`). -/
def strContains (s pat : String) : Bool :=
  (s.splitOn pat).length != 1

/-! ### The `url_to_info.json` citation loop -/

/-- Loop body of the citations loop for one `(url, info)` item where `info`
is a dict (the only case in which Python's `info.get` succeeds). -/
def citeOfObj (url : String) (io : List (String × PyJson)) : Citation :=
  let snippets0 := lookupD io "snippets" (PyJson.arr [])
  let snippets :=
    if jsonTruthy snippets0 then snippets0
    else
      match List.lookup "snippet" io with
      | some s => PyJson.arr [s]
      | none => snippets0
  { url := url
    title := lookupD io "title" (PyJson.str "")
    description := lookupD io "description" (PyJson.str "")
    snippets := snippets }

/-- Loop body including the failure case: `info.get` on a non-dict raises
`AttributeError` (caught by the outer handler of the source). -/
def citeOf (url : String) (info : PyJson) : Except PyErr Citation :=
  match info with
  | PyJson.obj io => Except.ok (citeOfObj url io)
  | _ => Except.error PyErr.attributeError

/-- `for i, (url, info) in enumerate(url_to_info.items(), start=1)` building
`citations[i]`: consecutive integer keys starting at `i0`, in the stored
iteration order of the object. -/
def buildCitationsFrom (i0 : Nat) : List (String × PyJson) →
    Except PyErr (List (Nat × Citation))
  | [] => Except.ok []
  | (url, info) :: rest => do
    let c ← citeOf url info
    let cs ← buildCitationsFrom (i0 + 1) rest
    Except.ok ((i0, c) :: cs)

/-- The `if "url_to_info.json" in article_file_path_dict:` block: absent key
yields no `citations` field; a read failure or decode failure of the JSON
escapes to the outer handlers (decode failure is NOT separately guarded
here); otherwise `url_info.get("url_to_info", \x7b\x7d).items()` is enumerated. -/
def citationsStep (fs : FS) (entries : List (String × String)) :
    Except PyErr (Option (List (Nat × Citation))) :=
  match List.lookup "url_to_info.json" entries with
  | none => Except.ok none
  | some p =>
    match fs.readJson p with
    | JsonReadResult.readErr e => Except.error (PyErr.readErr e)
    | JsonReadResult.decodeErr => Except.error PyErr.jsonDecode
    | JsonReadResult.ok j => do
      let top ← asObj j
      let pairs ← asObj (lookupD top "url_to_info" (PyJson.obj []))
      let cs ← buildCitationsFrom 1 pairs
      Except.ok (some cs)

/-! ### The conversation-log renaming loop -/

/-- `agent_names.get(n, f"Agent \x7bn\x7d")` for the fixed lookup
`agent_names = \x7b0: "User", 1: "AI Assistant", 2: "Expert"\x7d`. -/
def agentName (n : Int) : String :=
  if n = 0 then "User"
  else if n = 1 then "AI Assistant"
  else if n = 2 then "Expert"
  else "Agent " ++ toString n

/-- One iteration of `for entry in conversation_log:` with the condition
`if "agent" in entry and isinstance(entry["agent"], int):`.  A dict entry
with an integer `agent` value is renamed in place (Python `bool` is a
subclass of `int` and hashes equal to 0/1, so boolean values are renamed
through the same lookup); a dict entry without such a value is left as is.
A string entry supports `"agent" in entry` as a substring test, but then
`entry["agent"]` raises `TypeError`; a list entry supports membership, but
subscription by a string also raises `TypeError`; `in` on a number/None
raises `TypeError` directly. -/
def renameEntry : PyJson → Except PyErr PyJson
  | PyJson.obj kvs =>
    match List.lookup "agent" kvs with
    | some (PyJson.int n) =>
      Except.ok (PyJson.obj (updateKey kvs "agent" (PyJson.str (agentName n))))
    | some (PyJson.bool b) =>
      Except.ok (PyJson.obj (updateKey kvs "agent"
        (PyJson.str (agentName (if b then 1 else 0)))))
    | some _ => Except.ok (PyJson.obj kvs)
    | none => Except.ok (PyJson.obj kvs)
  | PyJson.str s =>
    if strContains s "agent" then Except.error PyErr.typeError
    else Except.ok (PyJson.str s)
  | PyJson.arr l =>
    if l.any (fun e => match e with | PyJson.str s => s == "agent" | _ => false) then
      Except.error PyErr.typeError
    else Except.ok (PyJson.arr l)
  | _ => Except.error PyErr.typeError

/-- The whole renaming loop `for entry in conversation_log:` applied to the
decoded JSON value.  Iterating a JSON array visits its elements; iterating
a dict visits its keys (strings, for which a key containing `"agent"`
triggers `entry["agent"]` and hence `TypeError`, and any other key is a
no-op); iterating a string visits its one-character substrings (never
containing `"agent"`, hence a no-op); numbers/booleans/None are not
iterable and raise `TypeError`. -/
def renameLog : PyJson → Except PyErr PyJson
  | PyJson.arr entries => do
    let es ← entries.mapM renameEntry
    Except.ok (PyJson.arr es)
  | PyJson.obj kvs =>
    if kvs.any (fun kv => strContains kv.fst "agent") then
      Except.error PyErr.typeError
    else Except.ok (PyJson.obj kvs)
  | PyJson.str s => Except.ok (PyJson.str s)
  | _ => Except.error PyErr.typeError

/-- The `if "conversation_log.json" in article_file_path_dict:` block with
its inner `try/except json.JSONDecodeError`: a decode failure is caught
there and the field is simply omitted; a read failure of the file, or a
`TypeError` from the renaming loop, escapes to the outer handlers. -/
def convLogStep (fs : FS) (entries : List (String × String)) :
    Except PyErr (Option PyJson) :=
  match List.lookup "conversation_log.json" entries with
  | none => Except.ok none
  | some p =>
    match fs.readJson p with
    | JsonReadResult.readErr e => Except.error (PyErr.readErr e)
    | JsonReadResult.decodeErr => Except.ok none
    | JsonReadResult.ok j => do
      let j2 ← renameLog j
      Except.ok (some j2)

/-! ### `assemble_article_data` -/

/-- Python `s.endswith(t)`: a character-level suffix test. -/
def strEndsWith (s t : String) : Bool :=
  t.toList.isSuffixOf s.toList

/-- `next((f for f in article_file_path_dict.keys() if f.endswith(".md")), None)`
paired with the subsequent `article_file_path_dict[article_file]` lookup
(keys of a dict are unique, so the value of the found pair is the value the
dict lookup returns). -/
def firstMd (entries : List (String × String)) : Option (String × String) :=
  entries.find? (fun kv => strEndsWith kv.fst ".md")

/-- The body of the `try:` block: read the article, parse it, derive
`short_text`, then run the citations block and the conversation-log block;
any uncaught exception inside is an `Except.error`. -/
def assembleTry (fs : FS) (entries : List (String × String)) (mdPath : String) :
    Except PyErr ArticleData := do
  let content ←
    match fs.readTxt mdPath with
    | Except.ok s => Except.ok s
    | Except.error e => Except.error (PyErr.readErr e)
  let parsed := fs.parse content
  let cites ← citationsStep fs entries
  let conv ← convLogStep fs entries
  Except.ok
    { article := parsed
      short_text := shortTextOf parsed
      citation := none
      citations := cites
      conversation_log := conv }

/-- `FileIOHelper.assemble_article_data`.  A non-dict argument raises
`TypeError` (`Except.error ()`); a dict with no `.md` key returns `None`;
otherwise the `try:` body runs and every exception it raises is caught by
the outer handlers and converted to `None`. -/
def assemble_article_data (fs : FS) : PyInput → Except Unit (Option ArticleData)
  | PyInput.nonDict => Except.error ()
  | PyInput.dict entries =>
    match firstMd entries with
    | none => Except.ok none
    | some kv => Except.ok (assembleTry fs entries kv.snd).toOption

/-! ### `_construct_citation_dict_from_search_result` -/

/-- One entry of the simplified citation dict built from a live search
result: only `url`, `title` and a one-element `snippets` list. -/
structure SRCitation where
  url : String
  title : PyJson
  snippets : PyJson
  deriving Repr, DecidableEq

/-- Python `citation_dict[index] = v`: replace in place when the key is
already present, append otherwise. -/
def dictSet (d : List (PyJson × SRCitation)) (k : PyJson) (v : SRCitation) :
    List (PyJson × SRCitation) :=
  if d.any (fun kv => kv.fst == k) then
    d.map (fun kv => if kv.fst = k then (kv.fst, v) else kv)
  else d ++ [(k, v)]

/-- Loop body of `_construct_citation_dict_from_search_result` for one
`(url, index)` item of `url_to_unified_index.items()`. -/
def srStep (j : PyJson) (acc : List (PyJson × SRCitation)) (kv : String × PyJson) :
    Except PyErr (List (PyJson × SRCitation)) := do
  let infoMap ← jsonIndex j "url_to_info"
  let info ← jsonIndex infoMap kv.fst
  let title ← jsonIndex info "title"
  let snippet ← jsonIndex info "snippet"
  Except.ok (dictSet acc kv.snd
    { url := kv.fst, title := title, snippets := PyJson.arr [snippet] })

/-- `FileIOHelper._construct_citation_dict_from_search_result`: `None` in,
`None` out; otherwise enumerate `search_results["url_to_unified_index"]`
and build the dict (a `KeyError`/`TypeError` on a malformed structure
propagates to the caller, as in the source, as `Except.error`). -/
def construct_citation_dict_from_search_result (sr : Option PyJson) :
    Except PyErr (Option (List (PyJson × SRCitation))) :=
  match sr with
  | none => Except.ok none
  | some j => do
    let uti ← jsonIndex j "url_to_unified_index"
    let pairs ← asObj uti
    let d ← pairs.foldlM (srStep j) []
    Except.ok (some d)

/-- A well-formed row of a search-result structure: one URL together with
its unified index, its title and its snippet. -/
structure SRRow where
  url : String
  index : PyJson
  title : PyJson
  snippet : PyJson

/-- The search-result JSON value whose `url_to_unified_index` and
`url_to_info` members are populated from the given rows. -/
def mkSR (rows : List SRRow) : PyJson :=
  PyJson.obj
    [("url_to_unified_index", PyJson.obj (rows.map fun r => (r.url, r.index))),
     ("url_to_info", PyJson.obj (rows.map fun r =>
       (r.url, PyJson.obj [("title", r.title), ("snippet", r.snippet)])))]

/-- The citation-dict entry the loop builds for one row. -/
def srRowCitation (r : SRRow) : PyJson × SRCitation :=
  (r.index, { url := r.url, title := r.title, snippets := PyJson.arr [r.snippet] })

/-! ### Concrete fixtures used by the witness theorems -/

/-- Parsed article content used in witnesses: a level-1 heading, a body
line, a level-2 heading, a trailing line. -/
def wParsed : String := "# T\nhello world, the article body\n## S\nrest"

/-- Environment whose article read succeeds, whose JSON reads all fail to
decode, and whose `parse` is the identity. -/
def wFS : FS :=
  { readTxt := fun _ => Except.ok wParsed
    readJson := fun _ => JsonReadResult.decodeErr
    parse := fun s => s }

/-- Environment whose article read fails with `FileNotFoundError`. -/
def wFSNotFound : FS :=
  { readTxt := fun _ => Except.error ReadError.notFound
    readJson := fun _ => JsonReadResult.decodeErr
    parse := fun s => s }

/-- Two url-info rows, the first with a title and the second without. -/
def wInfos : List (String × List (String × PyJson)) :=
  [("uA", [("title", PyJson.str "tA")]), ("uB", [])]

/-- A decoded `url_to_info.json` object holding the two rows above. -/
def wTop : List (String × PyJson) :=
  [("url_to_info", PyJson.obj (wInfos.map fun q => (q.fst, PyJson.obj q.snd)))]

/-- Environment whose `url_to_info.json` read yields the two rows above. -/
def wFSCit : FS :=
  { readTxt := fun _ => Except.ok wParsed
    readJson := fun _ => JsonReadResult.ok (PyJson.obj wTop)
    parse := fun s => s }

/-- A file map holding only the article. -/
def wEntriesMd : List (String × String) := [("storm_gen_article.md", "pa")]

/-- A file map holding the article and a citation index. -/
def wEntriesUrl : List (String × String) :=
  [("storm_gen_article.md", "pa"), ("url_to_info.json", "pu")]

/-- A file map holding the article and a conversation log. -/
def wEntriesConv : List (String × String) :=
  [("storm_gen_article.md", "pa"), ("conversation_log.json", "pc")]

/-- A conversation-log entry with agent 0 and a text field. -/
def wAgentKvs : List (String × PyJson) :=
  [("agent", PyJson.int 0), ("text", PyJson.str "hi")]

/-- An info record with empty `snippets` and a string `snippet`. -/
def wSnippetIo : List (String × PyJson) :=
  [("snippets", PyJson.arr []), ("snippet", PyJson.str "x")]

/-- Two search-result rows with distinct URLs and distinct indices. -/
def wRows : List SRRow :=
  [{ url := "uA", index := PyJson.int 1, title := PyJson.str "tA",
     snippet := PyJson.str "sA" },
   { url := "uB", index := PyJson.int 2, title := PyJson.str "tB",
     snippet := PyJson.str "sB" }]

/-- Text whose first line starts with four `#` characters. -/
def wHashText : List Char := "####a\nb\n".toList

/-- The first line of `wHashText`, with its newline. -/
def wHashLine : List Char := "####a\n".toList

/-- The record `assemble_article_data` produces for `wFS` and a file map
holding only the article. -/
def wData : ArticleData :=
  { article := wParsed
    short_text := shortTextOf wParsed
    citation := none
    citations := none
    conversation_log := none }

/-! ## Helper lemmas -/

theorem toList_mk (l : List Char) : (String.mk l).toList = l := rfl

theorem length_mk (l : List Char) : (String.mk l).length = l.length := rfl

/-- What the scanner `reSubAux` computes in each mode, in terms of the line
decomposition: from a line start, the lines whose first character is `#`
are dropped (with their newlines) and the rest is kept; from the middle of
a line, the rest of the current line is kept verbatim. -/
theorem reSub_modes (l : List Char) :
    reSubAux Mode.lineStart l = joinFiltered (splitAfterNL l)
    ∧ reSubAux Mode.copy l =
        (match splitAfterNL l with
         | [] => []
         | p :: ps => p ++ joinFiltered ps)
    ∧ reSubAux Mode.skip l =
        (match splitAfterNL l with
         | [] => []
         | _ :: ps => joinFiltered ps) := by
  induction l with
  | nil => exact ⟨rfl, rfl, rfl⟩
  | cons c cs ih =>
    obtain ⟨ih1, ih2, ih3⟩ := ih
    by_cases hh : c = '#'
    · subst hh
      have hn : ('#' : Char) ≠ '\n' := by decide
      refine ⟨?_, ?_, ?_⟩ <;>
        simp only [reSubAux, splitAfterNL, if_pos rfl, if_neg hn, ih2, ih3] <;>
        cases hsplit : splitAfterNL cs <;>
        simp [joinFiltered, startsWithHash, hsplit]
    · by_cases hn : c = '\n'
      · subst hn
        have hne : ('\n' : Char) ≠ '#' := by decide
        refine ⟨?_, ?_, ?_⟩ <;>
          simp [reSubAux, splitAfterNL, hh, ih1, joinFiltered, startsWithHash]
      · refine ⟨?_, ?_, ?_⟩ <;>
          simp only [reSubAux, splitAfterNL, if_neg hh, if_neg hn, ih2, ih3] <;>
          cases hsplit : splitAfterNL cs <;>
          simp [joinFiltered, startsWithHash, hsplit, hh]

/-- The output of the scanner has no `#` at any line start, whatever the
input: from a line start or inside a skipped line the next emitted line
start is hash-free, and from inside a copied line the current position is
not a line start. -/
theorem noHash_reSub (l : List Char) :
    noHashAux true (reSubAux Mode.lineStart l) = true
    ∧ noHashAux true (reSubAux Mode.skip l) = true
    ∧ noHashAux false (reSubAux Mode.copy l) = true := by
  induction l with
  | nil => exact ⟨rfl, rfl, rfl⟩
  | cons c cs ih =>
    obtain ⟨ih1, ih2, ih3⟩ := ih
    by_cases hh : c = '#'
    · subst hh
      have hn : ('#' : Char) ≠ '\n' := by decide
      refine ⟨?_, ?_, ?_⟩ <;>
        simp [reSubAux, noHashAux, hn, ih2, ih3]
    · by_cases hn : c = '\n'
      · subst hn
        refine ⟨?_, ?_, ?_⟩ <;>
          simp [reSubAux, noHashAux, hh, ih1]
      · have hb : (c == '\n') = false := by simp [hn]
        refine ⟨?_, ?_, ?_⟩ <;>
          simp [reSubAux, noHashAux, hh, hn, hb, ih2, ih3]

/-- Hash-freeness of line starts is preserved by taking a character-level
front portion of the text. -/
theorem noHashAux_take (l : List Char) : ∀ (f : Bool) (n : Nat),
    noHashAux f l = true → noHashAux f (l.take n) = true := by
  induction l with
  | nil => intro f n h; simpa using h
  | cons c cs ih =>
    intro f n h
    cases n with
    | zero => rfl
    | succ m =>
      simp only [List.take_succ_cons]
      simp only [noHashAux, Bool.and_eq_true] at h ⊢
      exact ⟨h.1, ih _ m h.2⟩

/-- `short_text` has no line starting with `#`, for every parsed content. -/
theorem noHash_shortText (s : String) :
    noHashLines (shortTextOf s).toList = true :=
  noHashAux_take _ true 100 (noHash_reSub s.toList).1

/-- The `try:` body when every step succeeds. -/
theorem assembleTry_ok (fs : FS) (entries : List (String × String))
    (mdPath content : String) (copt : Option (List (Nat × Citation)))
    (vopt : Option PyJson)
    (hread : fs.readTxt mdPath = Except.ok content)
    (hcit : citationsStep fs entries = Except.ok copt)
    (hconv : convLogStep fs entries = Except.ok vopt) :
    assembleTry fs entries mdPath = Except.ok
      { article := fs.parse content
        short_text := shortTextOf (fs.parse content)
        citation := none
        citations := copt
        conversation_log := vopt } := by
  simp only [assembleTry, hread, hcit, hconv]
  rfl

/-- The `try:` body when reading the article file fails. -/
theorem assembleTry_readErr (fs : FS) (entries : List (String × String))
    (mdPath : String) (e : ReadError)
    (hread : fs.readTxt mdPath = Except.error e) :
    assembleTry fs entries mdPath = Except.error (PyErr.readErr e) := by
  simp only [assembleTry, hread]
  rfl

/-- The `try:` body when the citations block raises. -/
theorem assembleTry_citErr (fs : FS) (entries : List (String × String))
    (mdPath content : String) (pe : PyErr)
    (hread : fs.readTxt mdPath = Except.ok content)
    (hcit : citationsStep fs entries = Except.error pe) :
    assembleTry fs entries mdPath = Except.error pe := by
  simp only [assembleTry, hread, hcit]
  rfl

/-- The `try:` body when the conversation-log block raises. -/
theorem assembleTry_convErr (fs : FS) (entries : List (String × String))
    (mdPath content : String) (copt : Option (List (Nat × Citation))) (pe : PyErr)
    (hread : fs.readTxt mdPath = Except.ok content)
    (hcit : citationsStep fs entries = Except.ok copt)
    (hconv : convLogStep fs entries = Except.error pe) :
    assembleTry fs entries mdPath = Except.error pe := by
  simp only [assembleTry, hread, hcit, hconv]
  rfl

/-- Inversion: a successfully assembled record determines every step. -/
theorem assembleTry_shape (fs : FS) (entries : List (String × String))
    (mdPath : String) (data : ArticleData)
    (h : assembleTry fs entries mdPath = Except.ok data) :
    ∃ content, fs.readTxt mdPath = Except.ok content
      ∧ citationsStep fs entries = Except.ok data.citations
      ∧ convLogStep fs entries = Except.ok data.conversation_log
      ∧ data.article = fs.parse content
      ∧ data.short_text = shortTextOf (fs.parse content)
      ∧ data.citation = none := by
  cases hread : fs.readTxt mdPath with
  | error e => rw [assembleTry_readErr fs entries mdPath e hread] at h; cases h
  | ok content =>
    cases hcit : citationsStep fs entries with
    | error pe => rw [assembleTry_citErr fs entries mdPath content pe hread hcit] at h; cases h
    | ok copt =>
      cases hconv : convLogStep fs entries with
      | error pe =>
        rw [assembleTry_convErr fs entries mdPath content copt pe hread hcit hconv] at h
        cases h
      | ok vopt =>
        rw [assembleTry_ok fs entries mdPath content copt vopt hread hcit hconv] at h
        obtain rfl := (Except.ok.injEq _ _).mp h
        exact ⟨content, rfl, rfl, rfl, rfl, rfl, rfl⟩

/-- A missing `url_to_info.json` key yields no `citations` field. -/
theorem citationsStep_noKey (fs : FS) (entries : List (String × String))
    (h : List.lookup "url_to_info.json" entries = none) :
    citationsStep fs entries = Except.ok none := by
  simp [citationsStep, h]

/-- A decode failure of `url_to_info.json` raises inside the `try:` body. -/
theorem citationsStep_decodeErr (fs : FS) (entries : List (String × String))
    (p : String)
    (hp : List.lookup "url_to_info.json" entries = some p)
    (hd : fs.readJson p = JsonReadResult.decodeErr) :
    citationsStep fs entries = Except.error PyErr.jsonDecode := by
  simp [citationsStep, hp, hd]

/-- A decode failure of `conversation_log.json` is caught by the inner
handler: the step succeeds with the field omitted. -/
theorem convLogStep_decodeErr (fs : FS) (entries : List (String × String))
    (q : String)
    (hq : List.lookup "conversation_log.json" entries = some q)
    (hd : fs.readJson q = JsonReadResult.decodeErr) :
    convLogStep fs entries = Except.ok none := by
  simp [convLogStep, hq, hd]

/-- Unfolding `assemble_article_data` on a dict argument. -/
theorem assemble_dict_eq (fs : FS) (entries : List (String × String)) :
    assemble_article_data fs (PyInput.dict entries) =
      (match firstMd entries with
       | none => Except.ok none
       | some kv => Except.ok (assembleTry fs entries kv.snd).toOption) := rfl

/-- The citations loop over an object whose info records are all objects:
indices are consecutive from the given start, in iteration order, and no
error is raised. -/
theorem buildCitationsFrom_objs (infos : List (String × List (String × PyJson))) :
    ∀ i : Nat, buildCitationsFrom i (infos.map fun q => (q.fst, PyJson.obj q.snd)) =
      Except.ok ((List.range' i infos.length).zip
        (infos.map fun q => citeOfObj q.fst q.snd)) := by
  induction infos with
  | nil => intro i; rfl
  | cons q rest ih =>
    intro i
    simp only [List.map_cons, buildCitationsFrom, citeOf, ih (i + 1),
      List.length_cons, List.range'_succ, List.zip_cons_cons]
    rfl

/-- In a keyed map built from rows with distinct URLs, looking up the URL
of a member row finds that row's image. -/
theorem lookup_map_row (g : SRRow → PyJson) (rows : List SRRow)
    (hnd : (rows.map SRRow.url).Nodup) (r : SRRow) (hr : r ∈ rows) :
    List.lookup r.url (rows.map fun x => (x.url, g x)) = some (g r) := by
  induction rows with
  | nil => cases hr
  | cons a rest ih =>
    rcases List.mem_cons.mp hr with rfl | hmem
    · simp [List.lookup]
    · have hne : r.url ≠ a.url := by
        intro hEq
        have : a.url ∈ rest.map SRRow.url := hEq ▸ List.mem_map_of_mem SRRow.url hmem
        exact (List.nodup_cons.mp hnd).1 this
      have hb : (r.url == a.url) = false := beq_eq_false_iff_ne.mpr hne
      simp only [List.map_cons, List.lookup, hb]
      exact ih (List.nodup_cons.mp hnd).2 hmem

/-- Assigning to a key not present in the dict appends the pair. -/
theorem dictSet_fresh (d : List (PyJson × SRCitation)) (k : PyJson)
    (v : SRCitation) (h : ∀ kv ∈ d, kv.fst ≠ k) :
    dictSet d k v = d ++ [(k, v)] := by
  unfold dictSet
  rw [if_neg]
  intro hany
  obtain ⟨kv, hkv, hbeq⟩ := List.any_eq_true.mp hany
  exact h kv hkv (by simpa using hbeq)

theorem ok_bind {ε α β : Type} (a : α) (f : α → Except ε β) :
    (Except.ok a : Except ε α) >>= f = f a := rfl

theorem error_bind {ε α β : Type} (e : ε) (f : α → Except ε β) :
    (Except.error e : Except ε α) >>= f = Except.error e := rfl

/-- One loop iteration of the search-result citation construction, on a
well-formed structure: the looked-up info record is the one of the row,
and the assignment appends because the index is fresh. -/
theorem srStep_row (rows : List SRRow) (hnd : (rows.map SRRow.url).Nodup)
    (r : SRRow) (hr : r ∈ rows) (acc : List (PyJson × SRCitation))
    (hfresh : ∀ kv ∈ acc, kv.fst ≠ r.index) :
    srStep (mkSR rows) acc (r.url, r.index) =
      Except.ok (acc ++ [srRowCitation r]) := by
  have h1 : jsonIndex (mkSR rows) "url_to_info" =
      Except.ok (PyJson.obj (rows.map fun x =>
        (x.url, PyJson.obj [("title", x.title), ("snippet", x.snippet)]))) := by
    simp [mkSR, jsonIndex, List.lookup]
  have h2 : jsonIndex (PyJson.obj (rows.map fun x =>
      (x.url, PyJson.obj [("title", x.title), ("snippet", x.snippet)]))) r.url =
      Except.ok (PyJson.obj [("title", r.title), ("snippet", r.snippet)]) := by
    simp only [jsonIndex,
      lookup_map_row (fun x => PyJson.obj [("title", x.title), ("snippet", x.snippet)])
        rows hnd r hr]
  have h3 : jsonIndex (PyJson.obj [("title", r.title), ("snippet", r.snippet)])
      "title" = Except.ok r.title := by
    simp [jsonIndex, List.lookup]
  have h4 : jsonIndex (PyJson.obj [("title", r.title), ("snippet", r.snippet)])
      "snippet" = Except.ok r.snippet := by
    simp [jsonIndex, List.lookup]
  simp only [srStep, h1, ok_bind, h2, h3, h4,
    dictSet_fresh acc r.index _ hfresh, srRowCitation]

/-- The whole fold of the search-result loop over a suffix of the rows:
with distinct URLs and pairwise-distinct indices each iteration appends,
so the dict lists the rows in iteration order. -/
theorem srFold (rows : List SRRow) (hnd : (rows.map SRRow.url).Nodup) :
    ∀ (sub : List SRRow) (acc : List (PyJson × SRCitation)),
    (∀ r ∈ sub, r ∈ rows) →
    (∀ r ∈ sub, ∀ kv ∈ acc, kv.fst ≠ r.index) →
    List.Pairwise (fun a b => a.index ≠ b.index) sub →
    List.foldlM (srStep (mkSR rows)) acc (sub.map fun r => (r.url, r.index)) =
      Except.ok (acc ++ sub.map srRowCitation) := by
  intro sub
  induction sub with
  | nil =>
    intro acc _ _ _
    simp only [List.map_nil, List.foldlM_nil, List.append_nil]
    rfl
  | cons r rest ih =>
    intro acc hmem hfresh hpw
    simp only [List.map_cons, List.foldlM_cons]
    rw [srStep_row rows hnd r (hmem r (List.mem_cons_self r rest)) acc
      (hfresh r (List.mem_cons_self r rest)), ok_bind]
    rw [ih (acc ++ [srRowCitation r])
      (fun x hx => hmem x (List.mem_cons_of_mem r hx))
      (fun x hx kv hkv => by
        rcases List.mem_append.mp hkv with hin | hin
        · exact hfresh x (List.mem_cons_of_mem r hx) kv hin
        · rcases List.mem_singleton.mp hin with rfl
          exact (List.pairwise_cons.mp hpw).1 x hx)
      (List.pairwise_cons.mp hpw).2]
    simp

/-- A line starting with four `#` characters in particular starts with one. -/
theorem fourHash_hash (p : List Char) (h : startsWithFourHash p = true) :
    startsWithHash p = true := by
  rcases p with _ | ⟨c1, _ | ⟨c2, _ | ⟨c3, _ | ⟨c4, rest⟩⟩⟩⟩ <;>
    simp_all [startsWithFourHash, startsWithHash]

/-! ## Claims -/

/-- C3: passing a non-mapping value (a sequence, a single string, ...) to
`assemble_article_data` raises the hard argument error (`TypeError`, the
spec's `InvalidArgument`) to the caller; it is not swallowed by the
internal error handling. -/
theorem assemble_type_error_on_non_mapping (fs : FS) :
    assemble_article_data fs PyInput.nonDict = Except.error () := rfl

/-- C3 witness: the hard error at a concrete environment. -/
theorem assemble_type_error_on_non_mapping_witness :
    assemble_article_data wFS PyInput.nonDict = Except.error () :=
  assemble_type_error_on_non_mapping wFS

/-- C4: on any mapping input the assembly never raises for missing or
corrupt article data: the call always returns (`Except.ok`); with no `.md`
key the result is the `null` record, and a read failure of the selected
`.md` file is caught and converted to `null` instead of propagating. -/
theorem assemble_never_raises_on_mappings (fs : FS)
    (entries : List (String × String)) :
    (∃ r, assemble_article_data fs (PyInput.dict entries) = Except.ok r)
    ∧ (firstMd entries = none →
        assemble_article_data fs (PyInput.dict entries) = Except.ok none)
    ∧ (∀ k p e, firstMd entries = some (k, p) →
        fs.readTxt p = Except.error e →
        assemble_article_data fs (PyInput.dict entries) = Except.ok none) := by
  refine ⟨?_, ?_, ?_⟩
  · rw [assemble_dict_eq]
    cases firstMd entries
    · exact ⟨none, rfl⟩
    · exact ⟨_, rfl⟩
  · intro h
    simp only [assemble_dict_eq, h]
  · intro k p e hmd hread
    simp only [assemble_dict_eq, hmd]
    rw [assembleTry_readErr fs entries p e hread]
    rfl

/-- C4 witness: a map whose only key is `storm_gen_article.md` with an
unreadable target assembles to the `null` record. -/
theorem assemble_never_raises_on_mappings_witness :
    assemble_article_data wFSNotFound (PyInput.dict wEntriesMd) =
      Except.ok none :=
  (assemble_never_raises_on_mappings wFSNotFound wEntriesMd).2.2
    "storm_gen_article.md" "pa" ReadError.notFound (by rfl) (by rfl)

/-- C2: with a readable `.md` file and a key literally named
`url_to_info.json` whose file holds invalid JSON, the decode failure is not
separately guarded: it propagates to the outer catch-all and the whole
record degrades to `null`. -/
theorem assemble_null_on_url_info_decode_error (fs : FS)
    (entries : List (String × String)) (k p content q : String)
    (hmd : firstMd entries = some (k, p))
    (hread : fs.readTxt p = Except.ok content)
    (hq : List.lookup "url_to_info.json" entries = some q)
    (hdec : fs.readJson q = JsonReadResult.decodeErr) :
    assemble_article_data fs (PyInput.dict entries) = Except.ok none := by
  simp only [assemble_dict_eq, hmd]
  rw [assembleTry_citErr fs entries p content PyErr.jsonDecode hread
    (citationsStep_decodeErr fs entries q hq hdec)]
  rfl

/-- C2 witness: article plus an undecodable `url_to_info.json` gives the
`null` record. -/
theorem assemble_null_on_url_info_decode_error_witness :
    assemble_article_data wFS (PyInput.dict wEntriesUrl) = Except.ok none :=
  assemble_null_on_url_info_decode_error wFS wEntriesUrl
    "storm_gen_article.md" "pa" wParsed "pu" (by rfl) (by rfl) (by rfl) (by rfl)

/-- C5: with a readable `.md` file, a successful citations block, and a key
literally named `conversation_log.json` whose file holds invalid JSON, the
assembly still returns a non-null record: the `conversation_log` field is
absent and `article`, `short_text`, `citation` and `citations` are
populated as usual. -/
theorem assemble_omits_conversation_log_on_decode_error (fs : FS)
    (entries : List (String × String)) (k p content q : String)
    (copt : Option (List (Nat × Citation)))
    (hmd : firstMd entries = some (k, p))
    (hread : fs.readTxt p = Except.ok content)
    (hcit : citationsStep fs entries = Except.ok copt)
    (hq : List.lookup "conversation_log.json" entries = some q)
    (hdec : fs.readJson q = JsonReadResult.decodeErr) :
    assemble_article_data fs (PyInput.dict entries) = Except.ok (some
      { article := fs.parse content
        short_text := shortTextOf (fs.parse content)
        citation := none
        citations := copt
        conversation_log := none }) := by
  simp only [assemble_dict_eq, hmd]
  rw [assembleTry_ok fs entries p content copt none hread hcit
    (convLogStep_decodeErr fs entries q hq hdec)]
  rfl

/-- C5 witness: article plus an undecodable `conversation_log.json` gives a
record with the log omitted and the other fields filled in. -/
theorem assemble_omits_conversation_log_on_decode_error_witness :
    assemble_article_data wFS (PyInput.dict wEntriesConv) = Except.ok (some
      { article := wFS.parse wParsed
        short_text := shortTextOf (wFS.parse wParsed)
        citation := none
        citations := none
        conversation_log := none }) :=
  assemble_omits_conversation_log_on_decode_error wFS wEntriesConv
    "storm_gen_article.md" "pa" wParsed "pc" none
    (by rfl) (by rfl) (by rfl) (by rfl) (by rfl)

/-- C1: whenever a record is returned for a file map whose first `.md`
entry is readable, its `short_text` equals the first 100 characters of the
parsed content after removing every line matching the heading pattern
(first character `#`; each matching line deleted together with its trailing
newline); consequently `short_text` never exceeds 100 characters, no
surviving line of it starts with `#` characters, and when at most 100
characters remain after the removal all of them are returned. -/
theorem assemble_short_text_spec (fs : FS) (entries : List (String × String))
    (k p content : String) (data : ArticleData)
    (hmd : firstMd entries = some (k, p))
    (hread : fs.readTxt p = Except.ok content)
    (hres : assemble_article_data fs (PyInput.dict entries) =
      Except.ok (some data)) :
    data.short_text =
        String.mk ((joinFiltered (splitAfterNL (fs.parse content).toList)).take 100)
    ∧ data.short_text.length ≤ 100
    ∧ noHashLines data.short_text.toList = true
    ∧ ((joinFiltered (splitAfterNL (fs.parse content).toList)).length ≤ 100 →
        data.short_text =
          String.mk (joinFiltered (splitAfterNL (fs.parse content).toList))) := by
  simp only [assemble_dict_eq, hmd, Except.ok.injEq] at hres
  cases ht : assembleTry fs entries (k, p).snd with
  | error pe => rw [ht] at hres; cases hres
  | ok d =>
    rw [ht] at hres
    simp only [Except.toOption, Option.some.injEq] at hres
    subst hres
    obtain ⟨c2, hr2, _, _, _, hshort, _⟩ :=
      assembleTry_shape fs entries (k, p).snd d ht
    rw [hread] at hr2
    obtain rfl := (Except.ok.injEq _ _).mp hr2
    have hrw : d.short_text =
        String.mk ((joinFiltered (splitAfterNL (fs.parse content).toList)).take 100) := by
      rw [hshort]
      unfold shortTextOf takeChars removeTitleLines
      rw [toList_mk, (reSub_modes (fs.parse content).toList).1]
    refine ⟨hrw, ?_, ?_, ?_⟩
    · rw [hrw, length_mk]
      exact List.length_take_le 100 _
    · rw [hshort]
      exact noHash_shortText (fs.parse content)
    · intro hle
      rw [hrw, List.take_of_length_le hle]

/-- C1 witness: a concrete assembled record whose `short_text` satisfies
all four properties. -/
theorem assemble_short_text_spec_witness :
    wData.short_text =
        String.mk ((joinFiltered (splitAfterNL (wFS.parse wParsed).toList)).take 100)
    ∧ wData.short_text.length ≤ 100
    ∧ noHashLines wData.short_text.toList = true
    ∧ ((joinFiltered (splitAfterNL (wFS.parse wParsed).toList)).length ≤ 100 →
        wData.short_text =
          String.mk (joinFiltered (splitAfterNL (wFS.parse wParsed).toList))) :=
  assemble_short_text_spec wFS wEntriesMd "storm_gen_article.md" "pa" wParsed
    wData (by rfl) (by rfl) (by rfl)

/-- C10: the heading-removal step deletes every line whose first character
is `#`, not only those with 1-3 of them: the substitution keeps exactly the
lines not starting with `#`, a line starting with four or more `#` is never
among the kept lines, and `short_text` therefore contains no line beginning
with any number of `#` characters. -/
theorem hash_removal_covers_four_or_more (l : List Char) :
    reSubAux Mode.lineStart l = joinFiltered (splitAfterNL l)
    ∧ (∀ p ∈ splitAfterNL l, startsWithFourHash p = true →
        p ∉ (splitAfterNL l).filter (fun q => !startsWithHash q))
    ∧ (∀ s : String, noHashLines (shortTextOf s).toList = true) := by
  refine ⟨(reSub_modes l).1, ?_, fun s => noHash_shortText s⟩
  intro p _ h4 hmem
  have hkeep := (List.mem_filter.mp hmem).2
  rw [fourHash_hash p h4] at hkeep
  cases hkeep

/-- C10 witness: the line `####a\n` of a concrete text is not among the
kept lines of the substitution. -/
theorem hash_removal_covers_four_or_more_witness :
    reSubAux Mode.lineStart wHashText = joinFiltered (splitAfterNL wHashText)
    ∧ wHashLine ∉ (splitAfterNL wHashText).filter (fun q => !startsWithHash q) :=
  ⟨(hash_removal_covers_four_or_more wHashText).1,
   (hash_removal_covers_four_or_more wHashText).2.1 wHashLine
     (by decide) (by decide)⟩

/-- C6: when `url_to_info.json` exists and decodes to an object whose
`url_to_info` member is an object of info records, `citations` enumerates
that object in its stored iteration order with sequential, contiguous,
1-based integer indices, and missing `title`/`description` fields default
to the empty string without error. -/
theorem citations_enumerate_in_insertion_order (fs : FS)
    (entries : List (String × String)) (p : String)
    (top : List (String × PyJson))
    (infos : List (String × List (String × PyJson)))
    (hk : List.lookup "url_to_info.json" entries = some p)
    (hj : fs.readJson p = JsonReadResult.ok (PyJson.obj top))
    (huti : List.lookup "url_to_info" top =
      some (PyJson.obj (infos.map fun q => (q.fst, PyJson.obj q.snd)))) :
    citationsStep fs entries = Except.ok (some
      ((List.range' 1 infos.length).zip
        (infos.map fun q => citeOfObj q.fst q.snd)))
    ∧ (∀ url io, List.lookup "title" io = none →
        (citeOfObj url io).title = PyJson.str "")
    ∧ (∀ url io, List.lookup "description" io = none →
        (citeOfObj url io).description = PyJson.str "") := by
  refine ⟨?_, ?_, ?_⟩
  · simp only [citationsStep, hk, hj, asObj, ok_bind, lookupD, huti,
      buildCitationsFrom_objs infos 1]
  · intro url io h
    simp [citeOfObj, lookupD, h]
  · intro url io h
    simp [citeOfObj, lookupD, h]

/-- C6 witness: two URLs in insertion order get indices 1 and 2, and the
record without a title defaults to the empty string. -/
theorem citations_enumerate_in_insertion_order_witness :
    citationsStep wFSCit wEntriesUrl = Except.ok (some
      ((List.range' 1 wInfos.length).zip
        (wInfos.map fun q => citeOfObj q.fst q.snd)))
    ∧ (citeOfObj "uB" []).title = PyJson.str "" :=
  ⟨(citations_enumerate_in_insertion_order wFSCit wEntriesUrl "pu" wTop wInfos
      (by rfl) (by rfl) (by rfl)).1,
   (citations_enumerate_in_insertion_order wFSCit wEntriesUrl "pu" wTop wInfos
      (by rfl) (by rfl) (by rfl)).2.1 "uB" [] (by rfl)⟩

/-- C7: a conversation-log entry whose `agent` field is the integer `n` is
renamed through the fixed lookup (0 to "User", 1 to "AI Assistant", 2 to
"Expert", anything else to "Agent n"), and an entry without an `agent`
field is left as-is. -/
theorem agent_renaming_lookup (kvs : List (String × PyJson)) (n : Int) :
    (List.lookup "agent" kvs = some (PyJson.int n) →
      renameEntry (PyJson.obj kvs) =
        Except.ok (PyJson.obj (updateKey kvs "agent" (PyJson.str (agentName n)))))
    ∧ agentName 0 = "User"
    ∧ agentName 1 = "AI Assistant"
    ∧ agentName 2 = "Expert"
    ∧ (n ≠ 0 → n ≠ 1 → n ≠ 2 → agentName n = "Agent " ++ toString n)
    ∧ (List.lookup "agent" kvs = none →
      renameEntry (PyJson.obj kvs) = Except.ok (PyJson.obj kvs)) := by
  refine ⟨?_, rfl, rfl, rfl, ?_, ?_⟩
  · intro h
    simp [renameEntry, h]
  · intro h0 h1 h2
    simp [agentName, h0, h1, h2]
  · intro h
    simp [renameEntry, h]

/-- C7 witness: agent 0 becomes "User" and agent 5 becomes "Agent 5". -/
theorem agent_renaming_lookup_witness :
    renameEntry (PyJson.obj wAgentKvs) =
      Except.ok (PyJson.obj (updateKey wAgentKvs "agent" (PyJson.str (agentName 0))))
    ∧ agentName 5 = "Agent " ++ toString (5 : Int) :=
  ⟨(agent_renaming_lookup wAgentKvs 0).1 (by rfl),
   (agent_renaming_lookup wAgentKvs 5).2.2.2.2.1
     (by decide) (by decide) (by decide)⟩

/-- C8: an info record whose `snippets` member is absent or the empty list
but which has a single-string `snippet` member yields a citation whose
`snippets` is the one-element list of that string (and the loop body never
errors on an object record). -/
theorem snippet_fallback_single (url : String)
    (io : List (String × PyJson)) (x : String)
    (hs : List.lookup "snippets" io = none
      ∨ List.lookup "snippets" io = some (PyJson.arr []))
    (hx : List.lookup "snippet" io = some (PyJson.str x)) :
    (citeOfObj url io).snippets = PyJson.arr [PyJson.str x]
    ∧ citeOf url (PyJson.obj io) = Except.ok (citeOfObj url io) := by
  refine ⟨?_, rfl⟩
  rcases hs with h | h <;>
    simp [citeOfObj, lookupD, h, jsonTruthy, hx]

/-- C8 witness: `snippets: []` with `snippet: "x"` yields `snippets: ["x"]`. -/
theorem snippet_fallback_single_witness :
    (citeOfObj "u" wSnippetIo).snippets = PyJson.arr [PyJson.str "x"] :=
  (snippet_fallback_single "u" wSnippetIo "x" (Or.inr (by rfl)) (by rfl)).1

/-- C9: `_construct_citation_dict_from_search_result` returns null on a
null/absent input, and otherwise — a pure data transform with no I/O —
maps each `(url, index)` item of `url_to_unified_index` (URLs and indices
distinct) to the entry at that index whose `snippets` field is the
one-element sequence wrapping the single `snippet` string of
`url_to_info`, in iteration order. -/
theorem construct_citation_dict_spec (rows : List SRRow)
    (hnd : (rows.map SRRow.url).Nodup)
    (hpw : List.Pairwise (fun a b => a.index ≠ b.index) rows) :
    construct_citation_dict_from_search_result none = Except.ok none
    ∧ construct_citation_dict_from_search_result (some (mkSR rows)) =
        Except.ok (some (rows.map srRowCitation)) := by
  refine ⟨rfl, ?_⟩
  have h1 : jsonIndex (mkSR rows) "url_to_unified_index" =
      Except.ok (PyJson.obj (rows.map fun r => (r.url, r.index))) := by
    simp [mkSR, jsonIndex, List.lookup]
  simp only [construct_citation_dict_from_search_result, h1, ok_bind, asObj]
  rw [srFold rows hnd rows [] (fun r hr => hr)
    (fun r _ kv hkv => absurd hkv (List.not_mem_nil kv)) hpw, ok_bind]
  rw [List.nil_append]

/-- C9 witness: two rows with distinct URLs and indices map to their two
entries in order, and the null input maps to null. -/
theorem construct_citation_dict_spec_witness :
    construct_citation_dict_from_search_result none = Except.ok none
    ∧ construct_citation_dict_from_search_result (some (mkSR wRows)) =
        Except.ok (some (wRows.map srRowCitation)) :=
  construct_citation_dict_spec wRows (by decide) (by decide)

end FileIOHelper
